import Mathlib

/-!
Verification of the command-line HTTP client in `src/main.go` against its
natural-language specification.  Each Go function used by a claim is
shallowly embedded as an executable Lean definition; machine integers
(`int64`) are modelled as `Int` with explicit wrapping where a multiplication
can overflow, and fallible Go code is modelled with `Except`/`Option`.
-/

/-! ## Size-string parsing (`parseSize`, src/main.go:257-280) -/

/-- Error outcomes of the embedded `parseSize`/`strconv.ParseInt`.
`indexOutOfRange` models the Go runtime panic raised by the unchecked
byte access `(value)[len(value)-1]` at src/main.go:258 when `value` is
empty; `parseError` models a non-nil `error` returned by
`strconv.ParseInt` (syntax or range failure). -/
inductive SizeErr where
  | indexOutOfRange
  | parseError
deriving DecidableEq

/-- Two's-complement wrap-around of Go `int64` multiplication. -/
def wrap64 (x : Int) : Int := (x + 2 ^ 63) % 2 ^ 64 - 2 ^ 63

/-- Model of Go `strconv.ParseInt(s, 10, 64)`: optional sign, then one or
more base-10 digits, with a two's-complement `int64` range check.  Both
`ErrSyntax` and `ErrRange` are collapsed to `SizeErr.parseError`, because
`parseSize` only propagates the non-nil error. -/
def parseInt64 (s : String) : Except SizeErr Int :=
  match s.toList with
  | [] => .error .parseError
  | c :: rest =>
    let signDigits : Bool × List Char :=
      if c = '-' then (true, rest)
      else if c = '+' then (false, rest)
      else (false, c :: rest)
    if signDigits.2 = [] then .error .parseError
    else if signDigits.2.all Char.isDigit then
      let n : Nat := signDigits.2.foldl (fun a d => a * 10 + (d.toNat - '0'.toNat)) 0
      if signDigits.1 then
        if 2 ^ 63 < n then .error .parseError else .ok (-(n : Int))
      else
        if 2 ^ 63 ≤ n then .error .parseError else .ok (n : Int)
    else .error .parseError

/-- Embedding of `parseSize` (src/main.go:257-280).  The last character is
read by the unchecked access `(value)[len(value)-1]`, so the empty string
yields the modelled runtime panic `indexOutOfRange`.  The Go `switch` at
src/main.go:264-275 has no `fallthrough`, so the empty `case 'k'`,
`case 'm'`, `case 'g'` bodies leave `number` unchanged (multiplier 1);
only `'K'`, `'M'`, `'G'` multiply.  Each multiplication is a Go `int64`
multiplication, hence wrapped. -/
def parseSize (value : String) : Except SizeErr Int :=
  match value.toList.getLast? with
  | none => .error .indexOutOfRange
  | some last =>
    if "kKmMgG".toList.contains last then
      match parseInt64 (String.mk value.toList.dropLast) with
      | .error e => .error e
      | .ok number =>
        if last = 'K' then .ok (wrap64 (number * 1024))
        else if last = 'M' then .ok (wrap64 (number * (1024 * 1024)))
        else if last = 'G' then .ok (wrap64 (number * (1024 * 1024 * 1024)))
        else .ok number
    else parseInt64 value

/-! ## HTTP method determination (src/main.go:70-79) -/

/-- Embedding of the method-determination branch of `parseFlags`
(src/main.go:70-79).  In the source, when `args.HTTPMethod` is empty the
inference chain runs (`HEAD` if `-I`, `POST` if data is present and `-G`
is not set, otherwise the method stays empty); when a method WAS given
explicitly, the `else` branch overwrites it with `"GET"`. -/
def determineMethod (httpMethod : String) (information : Bool)
    (hasData : Bool) (postWithGet : Bool) : String :=
  if httpMethod = "" then
    if information then "HEAD"
    else if hasData && !postWithGet then "POST"
    else httpMethod
  else "GET"

/-! ## `-d` data handling (src/main.go:81-90) -/

/-- Outcome of the `@`-prefix check on the `-d` argument. -/
inductive DataStep where
  | panicIndexOutOfRange
  | fileData (name : String)
  | literalData (data : String)
deriving DecidableEq

/-- Embedding of the data-argument step at src/main.go:81-90: the source
evaluates `(*args.Data)[0] == '@'` with no bounds check, so an empty data
string hits a Go index-out-of-range runtime panic; otherwise a leading
`'@'` switches the body to the contents of the named file. -/
def processDataFlag (data : String) : DataStep :=
  match data.toList with
  | [] => .panicIndexOutOfRange
  | c :: rest => if c = '@' then .fileData (String.mk rest) else .literalData data

/-! ## Response streaming loop (src/main.go:214-236) -/

/-- Embedding of the response copy loop at src/main.go:217-236, run on a
byte source `src`.  `res.Body.Read(buffer)` into the 1024-byte buffer is
modelled as returning `n = min 1024 src.length` bytes, signalling
`io.EOF` together with the read that exhausts the source.  Each returned
pair is one loop iteration: the possibly clamped `n` (kept as `Int`, the
Go `int`, so that a negative slice length would be visible) and the bytes
written by `args.OutputStream.Write(buffer[:n])`.  The branches map to
the source as follows:
* `src.length ≤ 1024` is the final read (`nRead = src.length`, `err = io.EOF`),
  so the loop breaks after the write, with `n` clamped to
  `MaxDownloadBytes - total` when `total + nRead >= MaxDownloadBytes`;
* otherwise `nRead = 1024` with no EOF: if the limit check
  `total + 1024 >= MaxDownloadBytes` fires, `n` is clamped, `err` is set
  to `io.EOF` and the loop breaks after the write; else the full buffer
  is written and the loop continues on the rest of the source. -/
def streamChunks (maxD : Option Int) (total : Int) (src : List Nat) :
    List (Int × List Nat) :=
  if hsrc : src.length ≤ 1024 then
    match maxD with
    | some m =>
      if total + (src.length : Int) ≥ m then
        [(m - total, src.take (m - total).toNat)]
      else [((src.length : Int), src)]
    | none => [((src.length : Int), src)]
  else
    match maxD with
    | some m =>
      if total + 1024 ≥ m then [(m - total, src.take (m - total).toNat)]
      else (1024, src.take 1024) :: streamChunks (some m) (total + 1024) (src.drop 1024)
    | none => (1024, src.take 1024) :: streamChunks none (total + 1024) (src.drop 1024)
termination_by src.length
decreasing_by
  all_goals simp only [List.length_drop]; omega

/-- All bytes written to the output stream across the loop iterations. -/
def chunkBytes (cs : List (Int × List Nat)) : List Nat := (cs.map Prod.snd).flatten

/-- The value of `total` after each loop iteration, starting from `t`. -/
def chunkTotals (t : Int) : List (Int × List Nat) → List Int
  | [] => []
  | c :: cs => (t + c.1) :: chunkTotals (t + c.1) cs

/-! ## Output destination resolution (src/main.go:187-211) -/

/-- Model of the Go regexp fragment after the literal `filename=` in the
pattern `filename="?(.+)"?` (src/main.go:191), with Go's leftmost-first
semantics: an optional double quote is consumed greedily, then the
capture group `(.+)` greedily takes the longest run of non-newline
characters (at least one); the trailing optional quote then matches the
empty string, so a closing quote stays inside the capture.  If the
character after `filename=` is a quote followed by no capturable
character, the engine backtracks and the quote itself is captured. -/
def matchAfterFilenameEq (l : List Char) : Option (List Char) :=
  match l with
  | '"' :: rest =>
    let run := rest.takeWhile (fun c => c != '\n')
    some (if run.isEmpty then ['"'] else run)
  | c :: rest =>
    if c = '\n' then none
    else some ((c :: rest).takeWhile (fun c => c != '\n'))
  | [] => none

/-- Model of `pattern.FindStringSubmatch(disposition)` for the pattern
`filename="?(.+)"?` (src/main.go:191-192): scan left to right for the
first occurrence of the literal `filename=` whose tail admits a match,
and return the capture group; `none` models `len(matches) < 2`. -/
def findFilenameMatch : List Char → Option (List Char)
  | [] => none
  | c :: rest =>
    if "filename=".toList.isPrefixOf (c :: rest) then
      match matchAfterFilenameEq ((c :: rest).drop 9) with
      | some cap => some cap
      | none => findFilenameMatch rest
    else findFilenameMatch rest

/-- Model of Go `path.Base` (called at src/main.go:199): empty input gives
`"."`; trailing slashes are stripped; if nothing remains the path was all
slashes and the result is `"/"`; otherwise the segment after the last
slash is returned. -/
def pathBase (s : String) : String :=
  if s = "" then "."
  else
    let stripped := (s.toList.reverse.dropWhile (fun c => c = '/')).reverse
    if stripped.isEmpty then "/"
    else String.mk (stripped.reverse.takeWhile (fun c => c != '/')).reverse

/-- Where the response body is written. `unset` models the state in which
neither `args.OutputFile` nor `args.OutputStream` was assigned. -/
inductive OutputDest where
  | file (name : String)
  | stdout
  | unset
deriving DecidableEq

/-- Embedding of the output-destination resolution at src/main.go:187-204.
`disposition` is `res.Header.Get("Content-Disposition")`, which is the
empty string when the header is absent.  Note the source's shape: the
`path.Base` fallback sits on the `disposition == ""` branch only; when
the header is present but the pattern yields no match, neither
`args.OutputFile` nor `args.OutputStream` is assigned. -/
def resolveOutput (outputFile : Option String) (useRemoteName : Bool)
    (disposition : String) (url : String) : OutputDest :=
  match outputFile with
  | some f => .file f
  | none =>
    if useRemoteName then
      if disposition ≠ "" then
        match findFilenameMatch disposition.toList with
        | some cap => .file (String.mk cap)
        | none => .unset
      else .file (pathBase url)
    else .stdout

/-! ## Output file opening (src/main.go:205-211) -/

/-- Flags for `os.OpenFile`. -/
inductive OpenFlag where
  | oCreate
  | oWronly
  | oTrunc
deriving DecidableEq

/-- The flag set passed to `os.OpenFile` at src/main.go:206:
`os.O_CREATE|os.O_WRONLY` — `os.O_TRUNC` is not among them. -/
def outputOpenFlags : List OpenFlag := [.oCreate, .oWronly]

/-- Modelled from POSIX `open(2)`/`write(2)` semantics (the behaviour of
`os.OpenFile` plus sequential `Write` calls, which are outside this
repository): opening an existing file with prior contents `old` and then
writing `ws` from offset 0 empties the file first only when `O_TRUNC` is
among the flags; without it the written bytes overwrite in place and any
longer prior tail survives. -/
def contentsAfterRun (flags : List OpenFlag) (old ws : List Nat) : List Nat :=
  let start := if flags.contains .oTrunc then [] else old
  ws ++ start.drop ws.length

/-! ## Content-type inference (`guessDataType`, src/main.go:240-254) -/

/-- Whitespace characters of the `encoding/json` scanner. -/
def jsonWS (c : Char) : Bool := c = ' ' || c = '\t' || c = '\n' || c = '\r'

/-- Skip JSON whitespace. -/
def skipWS (l : List Char) : List Char := l.dropWhile jsonWS

/-- Hexadecimal digit, for JSON `\uXXXX` escapes. -/
def isHexDigit (c : Char) : Bool :=
  c.isDigit || ('a' ≤ c && c ≤ 'f') || ('A' ≤ c && c ≤ 'F')

/-- Model of the `encoding/json` scanner inside a string literal, entered
after the opening quote; returns the input remaining after the closing
quote.  Plain characters must be at least `0x20`; a backslash introduces
one of the simple escapes or `\u` plus four hex digits. -/
def parseStringRest : List Char → Option (List Char)
  | [] => none
  | '"' :: rest => some rest
  | '\\' :: rest =>
    match rest with
    | [] => none
    | e :: rest2 =>
      if e = '"' || e = '\\' || e = '/' || e = 'b' || e = 'f' ||
          e = 'n' || e = 'r' || e = 't' then
        parseStringRest rest2
      else if e = 'u' then
        match rest2 with
        | a :: b :: c :: d :: rest3 =>
          if isHexDigit a && isHexDigit b && isHexDigit c && isHexDigit d then
            parseStringRest rest3
          else none
        | _ => none
      else none
  | c :: rest => if 0x20 ≤ c.toNat then parseStringRest rest else none

/-- Consume the fraction and exponent parts of a JSON number, if present. -/
def parseFracExp (l : List Char) : Option (List Char) :=
  let afterFrac : Option (List Char) :=
    match l with
    | '.' :: r =>
      (match r with
       | c :: r2 => if c.isDigit then some (r2.dropWhile Char.isDigit) else none
       | [] => none)
    | _ => some l
  match afterFrac with
  | none => none
  | some l2 =>
    match l2 with
    | e :: r =>
      if e = 'e' || e = 'E' then
        let r2 : List Char :=
          match r with
          | s :: r3 => if s = '+' || s = '-' then r3 else s :: r3
          | [] => []
        match r2 with
        | c :: r3 => if c.isDigit then some (r3.dropWhile Char.isDigit) else none
        | [] => none
      else some l2
    | [] => some l2

/-- Consume a JSON number after an optional leading minus sign: a single
`0` or a nonzero digit followed by digits, then fraction and exponent. -/
def parseNumberRest (l : List Char) : Option (List Char) :=
  match l with
  | c :: rest =>
    if c = '0' then parseFracExp rest
    else if c.isDigit then parseFracExp (rest.dropWhile Char.isDigit)
    else none
  | [] => none

/-- Parsing modes of the JSON value scanner: a value, the inside of an
object after `\x7b`, the members of an object, the inside of an array
after `[`, and the elements of an array. -/
inductive JsonMode where
  | value
  | objRest
  | objMembers
  | arrRest
  | arrElems

/-- Model of `json.NewDecoder(...).Decode(&json.RawMessage{})` reading one
JSON value (src/main.go:242-243): recursive-descent over the JSON
grammar, fuelled so the recursion is structural.  Returns whether the
value was compound (object or array) and the unconsumed input. -/
def jsonP (fuel : Nat) (mode : JsonMode) (l : List Char) : Option (Bool × List Char) :=
  match fuel with
  | 0 => none
  | fuel + 1 =>
    match mode with
    | .value =>
      match skipWS l with
      | '{' :: rest => (jsonP fuel .objRest rest).map (fun p => (true, p.2))
      | '[' :: rest => (jsonP fuel .arrRest rest).map (fun p => (true, p.2))
      | '"' :: rest => (parseStringRest rest).map (fun r => (false, r))
      | '-' :: rest => (parseNumberRest rest).map (fun r => (false, r))
      | c :: rest =>
        if c.isDigit then (parseNumberRest (c :: rest)).map (fun r => (false, r))
        else if "true".toList.isPrefixOf (c :: rest) then some (false, (c :: rest).drop 4)
        else if "false".toList.isPrefixOf (c :: rest) then some (false, (c :: rest).drop 5)
        else if "null".toList.isPrefixOf (c :: rest) then some (false, (c :: rest).drop 4)
        else none
      | [] => none
    | .objRest =>
      match skipWS l with
      | '}' :: rest => some (true, rest)
      | l2 => jsonP fuel .objMembers l2
    | .objMembers =>
      match skipWS l with
      | '"' :: rest =>
        (match parseStringRest rest with
         | none => none
         | some r =>
           match skipWS r with
           | ':' :: r2 =>
             (match jsonP fuel .value r2 with
              | none => none
              | some p =>
                match skipWS p.2 with
                | ',' :: r4 => jsonP fuel .objMembers r4
                | '}' :: r4 => some (true, r4)
                | _ => none)
           | _ => none)
      | _ => none
    | .arrRest =>
      match skipWS l with
      | ']' :: rest => some (true, rest)
      | l2 => jsonP fuel .arrElems l2
    | .arrElems =>
      match jsonP fuel .value l with
      | none => none
      | some p =>
        match skipWS p.2 with
        | ',' :: r2 => jsonP fuel .arrElems r2
        | ']' :: r2 => some (true, r2)
        | _ => none

/-- Model of a successful `Decode` of one JSON value on the body string
(src/main.go:242-244).  The decoder errors out unless one grammatical
value is read; after a compound value the decoder probes with a space,
so trailing garbage is fine, while after a primitive value the next
input character (if any) must be whitespace — the scanner otherwise
reports an invalid character after the top-level value. -/
def jsonDecodeOk (s : String) : Bool :=
  match jsonP (4 * s.length + 8) .value s.toList with
  | none => false
  | some (isCompound, rest) =>
    isCompound ||
      (match rest with
       | [] => true
       | c :: _ => jsonWS c)

/-- ASCII word character, as in the Go regexp `\b` assertion. -/
def isWordChar (c : Char) : Bool := c.isAlphanum || c = '_'

/-- Word boundary of the Go regexp engine between positions `p - 1` and
`p` of the subject (out-of-range counts as a non-word character). -/
def wordBoundary (s : List Char) (p : Nat) : Bool :=
  let before : Bool :=
    match p with
    | 0 => false
    | q + 1 =>
      match s.get? q with
      | some c => isWordChar c
      | none => false
  let after : Bool :=
    match s.get? p with
    | some c => isWordChar c
    | none => false
  before != after

/-- Continuation of the form-data pattern after a matched `=` at position
`i - 1`: the lazy `.+?` takes the characters up to some position `q > i`
(all non-newline, at least one), then the optional `&` and the `\b` word
boundary.  A regexp match exists exactly when some such `q` works. -/
def formTailMatch (s : List Char) (i : Nat) : Bool :=
  (List.range (s.length + 1)).any (fun q =>
    decide (i < q) && decide (q ≤ s.length) &&
    ((s.drop i).take (q - i)).all (fun c => c != '\n') &&
    (wordBoundary s q ||
      ((match s.get? q with
        | some c => c == '&'
        | none => false) && wordBoundary s (q + 1))))

/-- Model of `pattern.Match` for the Go regexp at src/main.go:248,
written there as dot-star-lazy, `=`, dot-plus-lazy, optional `&`, and a
word boundary.  The pattern is unanchored and the leading lazy dot-star
can be empty, so a match exists exactly when some `=` in the subject has
a matching tail. -/
def formMatch (s : List Char) : Bool :=
  (List.range s.length).any (fun i =>
    (match s.get? i with
     | some c => c == '='
     | none => false) && formTailMatch s (i + 1))

/-- Embedding of `guessDataType` (src/main.go:241-254): try a JSON decode
of the body first; on failure try the form-data pattern; otherwise no
content type.  The function always returns a value — it never reports a
parse error. -/
def guessDataType (data : String) : String × Bool :=
  if jsonDecodeOk data then ("application/json", true)
  else if formMatch data.toList then ("application/x-www-form-urlencoded", true)
  else ("", false)

/-! ## Theorems for claims C1, C3, C6, C9 -/

/-- C1: the claim says an explicit `-X` method is sent unchanged.  On the
code the branch is inverted: an explicitly given method (here `"PUT"`,
with `-I`/`-d`/`-G` all unset) is unconditionally overwritten with
`"GET"`, so the claim is right and the code is wrong. -/
theorem explicit_method_overwritten_with_get :
    determineMethod "PUT" false false false = "GET" ∧
    determineMethod "PUT" false false false ≠ "PUT" := by
  constructor <;> decide

/-- C3: the claim says size suffixes are case-insensitive.  On the code the
`switch` does not fall through, so `"2k"`, `"2m"`, `"2g"` parse with
multiplier 1 while `"2K"`, `"2M"`, `"2G"` get the documented multipliers:
the claim matches the source's own `//kilobyte` etc. comments and the
code is a missing-fallthrough slip. -/
theorem lowercase_suffix_multiplier_dropped :
    parseSize "2k" = .ok 2 ∧ parseSize "2K" = .ok 2048 ∧
    parseSize "2m" = .ok 2 ∧ parseSize "2M" = .ok 2097152 ∧
    parseSize "2g" = .ok 2 ∧ parseSize "2G" = .ok 2147483648 := by
  refine ⟨?_, ?_, ?_, ?_, ?_, ?_⟩ <;> rfl

/-- C6: the concrete size-parsing vectors.  `"11K"`, `"5M"`, `"2G"` and
`"100"` evaluate to the stated byte counts; the empty string yields the
modelled index-out-of-range panic (an error outcome), and `"abcK"` yields
a parse error from `strconv.ParseInt`. -/
theorem parseSize_vectors :
    parseSize "11K" = .ok 11264 ∧
    parseSize "5M" = .ok 5242880 ∧
    parseSize "2G" = .ok 2147483648 ∧
    parseSize "100" = .ok 100 ∧
    parseSize "" = .error .indexOutOfRange ∧
    parseSize "abcK" = .error .parseError := by
  refine ⟨?_, ?_, ?_, ?_, ?_, ?_⟩ <;> rfl

/-- C9: supplying `-d` with the empty string reaches the unchecked index
access `(*args.Data)[0]`, which is out of range exactly when the data
string is empty, so the program panics instead of sending an empty-body
request. -/
theorem empty_data_panics :
    ∀ s : String, processDataFlag s = .panicIndexOutOfRange ↔ s = "" := by
  intro s
  cases s with
  | mk l =>
    cases l with
    | nil => exact ⟨fun _ => rfl, fun _ => rfl⟩
    | cons c rest =>
      constructor
      · intro h
        exfalso
        have hred : processDataFlag (String.mk (c :: rest)) =
            (if c = '@' then DataStep.fileData (String.mk rest)
             else DataStep.literalData (String.mk (c :: rest))) := rfl
        rw [hred] at h
        by_cases hc : c = '@' <;> simp [hc] at h
      · intro h
        exact absurd (congrArg String.data h) (by simp)

/-! ## Streaming lemmas and theorems for claims C2, C7, C10 -/

theorem chunkBytes_nil : chunkBytes [] = [] := rfl

theorem chunkBytes_cons (c : Int × List Nat) (cs : List (Int × List Nat)) :
    chunkBytes (c :: cs) = c.2 ++ chunkBytes cs := by
  simp [chunkBytes]

theorem chunkBytes_singleton (c : Int × List Nat) : chunkBytes [c] = c.2 := by
  simp [chunkBytes]

theorem streamChunks_none_bytes (total : Int) (src : List Nat) :
    chunkBytes (streamChunks none total src) = src := by
  by_cases hsrc : src.length ≤ 1024
  · rw [streamChunks, dif_pos hsrc]
    simp [chunkBytes]
  · rw [streamChunks, dif_neg hsrc]
    rw [chunkBytes_cons, streamChunks_none_bytes (total + 1024) (src.drop 1024)]
    exact List.take_append_drop 1024 src
termination_by src.length
decreasing_by
  simp only [List.length_drop]; omega

theorem streamChunks_some_bytes_len (m total : Int) (src : List Nat)
    (hm : total ≤ m) :
    (chunkBytes (streamChunks (some m) total src)).length
      = min src.length (m - total).toNat := by
  by_cases hsrc : src.length ≤ 1024
  · rw [streamChunks, dif_pos hsrc]
    by_cases hc : total + (src.length : Int) ≥ m
    · rw [if_pos hc, chunkBytes_singleton]
      dsimp only
      simp only [List.length_take]
      omega
    · rw [if_neg hc, chunkBytes_singleton]
      dsimp only
      omega
  · rw [streamChunks, dif_neg hsrc]
    by_cases hc : total + 1024 ≥ m
    · rw [if_pos hc, chunkBytes_singleton]
      dsimp only
      simp only [List.length_take]
      omega
    · rw [if_neg hc]
      rw [chunkBytes_cons]
      have ih := streamChunks_some_bytes_len m (total + 1024) (src.drop 1024)
        (by omega)
      rw [List.length_append, ih]
      dsimp only
      simp only [List.length_take, List.length_drop]
      omega
termination_by src.length
decreasing_by
  simp only [List.length_drop]; omega

theorem streamChunks_some_bounds (m total : Int) (src : List Nat)
    (hm : total ≤ m) :
    ∀ c ∈ streamChunks (some m) total src,
      0 ≤ c.1 ∧ c.1 ≤ 1024 ∧ (c.2.length : Int) = c.1 := by
  by_cases hsrc : src.length ≤ 1024
  · rw [streamChunks, dif_pos hsrc]
    by_cases hc : total + (src.length : Int) ≥ m
    · rw [if_pos hc]
      intro c hcmem
      simp only [List.mem_singleton] at hcmem
      subst hcmem
      dsimp only
      simp only [List.length_take]
      omega
    · rw [if_neg hc]
      intro c hcmem
      simp only [List.mem_singleton] at hcmem
      subst hcmem
      dsimp only
      omega
  · rw [streamChunks, dif_neg hsrc]
    by_cases hc : total + 1024 ≥ m
    · rw [if_pos hc]
      intro c hcmem
      simp only [List.mem_singleton] at hcmem
      subst hcmem
      dsimp only
      simp only [List.length_take]
      omega
    · rw [if_neg hc]
      intro c hcmem
      rcases List.mem_cons.mp hcmem with h | h
      · subst h
        dsimp only
        simp only [List.length_take]
        omega
      · exact streamChunks_some_bounds m (total + 1024) (src.drop 1024)
          (by omega) c h
termination_by src.length
decreasing_by
  simp only [List.length_drop]; omega

theorem streamChunks_some_totals_le (m total : Int) (src : List Nat)
    (hm : total ≤ m) :
    ∀ t ∈ chunkTotals total (streamChunks (some m) total src), t ≤ m := by
  by_cases hsrc : src.length ≤ 1024
  · rw [streamChunks, dif_pos hsrc]
    by_cases hc : total + (src.length : Int) ≥ m
    · rw [if_pos hc]
      intro t ht
      simp only [chunkTotals, List.mem_singleton] at ht
      omega
    · rw [if_neg hc]
      intro t ht
      simp only [chunkTotals, List.mem_singleton] at ht
      omega
  · rw [streamChunks, dif_neg hsrc]
    by_cases hc : total + 1024 ≥ m
    · rw [if_pos hc]
      intro t ht
      simp only [chunkTotals, List.mem_singleton] at ht
      omega
    · rw [if_neg hc]
      intro t ht
      simp only [chunkTotals, List.mem_cons] at ht
      rcases ht with h | h
      · omega
      · exact streamChunks_some_totals_le m (total + 1024) (src.drop 1024)
          (by omega) t h
termination_by src.length
decreasing_by
  simp only [List.length_drop]; omega

/-- C2: with a configured maximum-download limit `m ≥ 0` on a source of
`src.length` bytes read in 1024-byte chunks, the loop writes exactly
`min src.length m` bytes, and every iteration's written slice has a
non-negative length `n` of at most 1024 (and the bytes written number
exactly `n`). -/
theorem maxDownload_writes_min (m : Int) (hm : 0 ≤ m) (src : List Nat) :
    (chunkBytes (streamChunks (some m) 0 src)).length = min src.length m.toNat ∧
    ∀ c ∈ streamChunks (some m) 0 src,
      0 ≤ c.1 ∧ c.1 ≤ 1024 ∧ (c.2.length : Int) = c.1 := by
  constructor
  · have h := streamChunks_some_bytes_len m 0 src hm
    simpa using h
  · exact streamChunks_some_bounds m 0 src hm

/-- Witness for C2 at the spec's own numbers: limit 2000 against a
5000-byte source. -/
theorem maxDownload_writes_min_witness :
    (0 : Int) ≤ 2000 ∧
    (chunkBytes (streamChunks (some 2000) 0 (List.replicate 5000 0))).length
      = min (List.replicate 5000 0).length (2000 : Int).toNat := by
  refine ⟨by norm_num, (maxDownload_writes_min 2000 (by norm_num) (List.replicate 5000 0)).1⟩

/-- C7: with no maximum-download limit configured, the loop copies the
source to the destination byte-for-byte. -/
theorem stream_no_limit_roundtrip (src : List Nat) :
    chunkBytes (streamChunks none 0 src) = src :=
  streamChunks_none_bytes 0 src

/-- C10: with a configured limit `m ≥ 0`, the running total of bytes
written is at most `m` after every loop iteration, not only at
termination. -/
theorem running_total_never_exceeds_limit (m : Int) (hm : 0 ≤ m)
    (src : List Nat) :
    ∀ t ∈ chunkTotals 0 (streamChunks (some m) 0 src), t ≤ m :=
  streamChunks_some_totals_le m 0 src hm

/-- Witness for C10: limit 2000 against a 3000-byte source. -/
theorem running_total_never_exceeds_limit_witness :
    (0 : Int) ≤ 2000 ∧
    ∀ t ∈ chunkTotals 0 (streamChunks (some 2000) 0 (List.replicate 3000 7)),
      t ≤ 2000 :=
  ⟨by norm_num, running_total_never_exceeds_limit 2000 (by norm_num) (List.replicate 3000 7)⟩

/-! ## Theorems for claims C4, C8 -/

/-- C4 counterexample: the header is present (value `attachment`) but the
`filename=` pattern finds no match; the code leaves the output
destination unset instead of falling back to the URL's final path
segment. -/
theorem header_present_no_match_leaves_output_unset :
    resolveOutput none true "attachment" "http://x/report.csv" = .unset ∧
    resolveOutput none true "attachment" "http://x/report.csv"
      ≠ .file (pathBase "http://x/report.csv") := by
  constructor <;> decide

/-- C4 as amended: with `-O` and no explicit output file, an absent
`Content-Disposition` header (the empty string) falls back to the final
path segment of the URL; a present header whose pattern match succeeds
names the file from the capture; a present header whose pattern match
fails leaves the output destination unset (no URL fallback). -/
theorem remote_name_resolution (url disposition : String) :
    (resolveOutput none true "" url = .file (pathBase url)) ∧
    (disposition ≠ "" → ∀ cap, findFilenameMatch disposition.toList = some cap →
      resolveOutput none true disposition url = .file (String.mk cap)) ∧
    (disposition ≠ "" → findFilenameMatch disposition.toList = none →
      resolveOutput none true disposition url = .unset) := by
  refine ⟨rfl, ?_, ?_⟩
  · intro hne cap hcap
    simp only [String.toList] at hcap
    simp [resolveOutput, hne, hcap]
  · intro hne hnone
    simp only [String.toList] at hnone
    simp [resolveOutput, hne, hnone]

/-- Witness for C4's amended statement at concrete headers. -/
theorem remote_name_resolution_witness :
    resolveOutput none true "" "http://host/a.txt" = .file (pathBase "http://host/a.txt") ∧
    resolveOutput none true "attachment; filename=r.csv" "http://host/a.txt"
      = .file (String.mk "r.csv".toList) ∧
    resolveOutput none true "inline" "http://host/a.txt" = .unset :=
  ⟨(remote_name_resolution "http://host/a.txt" "").1,
   (remote_name_resolution "http://host/a.txt" "attachment; filename=r.csv").2.1
     (by decide) "r.csv".toList (by decide),
   (remote_name_resolution "http://host/a.txt" "inline").2.2
     (by decide) (by decide)⟩

/-- C8 counterexample: the open flags at src/main.go:206 lack `O_TRUNC`,
so writing the single byte 9 over a pre-existing file holding bytes
1,2,3 leaves 9,2,3 — not exactly the bytes written by this response. -/
theorem output_file_not_truncated :
    contentsAfterRun outputOpenFlags [1, 2, 3] [9] = [9, 2, 3] ∧
    ([9, 2, 3] : List Nat) ≠ [9] := by
  constructor <;> decide

/-- C8 as amended: the output file is opened with create-and-write-only
flags, without truncate, so after the run the file holds the bytes
written from this response followed by whatever tail of the pre-existing
contents extends beyond them. -/
theorem output_file_keeps_old_tail :
    outputOpenFlags.contains OpenFlag.oTrunc = false ∧
    ∀ old ws : List Nat,
      contentsAfterRun outputOpenFlags old ws = ws ++ old.drop ws.length := by
  refine ⟨by decide, ?_⟩
  intro old ws
  simp [contentsAfterRun, outputOpenFlags]

/-! ## Theorems for claim C5 -/

/-- C5: content-type inference tries the categories in order, JSON first:
a body that decodes as a single JSON value classifies as
`application/json` with the header required; one that does not but
matches the form-data pattern classifies as
`application/x-www-form-urlencoded` with the header required; one that
matches neither yields no content type and no header. -/
theorem guessDataType_classification (s : String) :
    (jsonDecodeOk s = true → guessDataType s = ("application/json", true)) ∧
    (jsonDecodeOk s = false → formMatch s.toList = true →
      guessDataType s = ("application/x-www-form-urlencoded", true)) ∧
    (jsonDecodeOk s = false → formMatch s.toList = false →
      guessDataType s = ("", false)) := by
  refine ⟨?_, ?_, ?_⟩
  · intro hj
    simp [guessDataType, hj]
  · intro hj hf
    simp only [String.toList] at hf
    simp [guessDataType, hj, hf]
  · intro hj hf
    simp only [String.toList] at hf
    simp [guessDataType, hj, hf]

/-- Witness for C5 on one body of each category: a JSON array, a
`key=value` form body, and a body matching neither. -/
theorem guessDataType_classification_witness :
    guessDataType "[1]" = ("application/json", true) ∧
    guessDataType "a=b" = ("application/x-www-form-urlencoded", true) ∧
    guessDataType "hello" = ("", false) :=
  ⟨(guessDataType_classification "[1]").1 (by decide),
   (guessDataType_classification "a=b").2.1 (by decide) (by decide),
   (guessDataType_classification "hello").2.2 (by decide) (by decide)⟩
